import Mathlib

/-!
Verification development for the bidaf-self-attention repository.

Part 1 embeds `SquadMetricsV2` from `src/src/metrics/squad_v2.py`:
a mutable accumulator of exact-match / F1 statistics, partitioned into
"no-answer" and "answerable" examples.  Python floats holding sums of
scores are embedded as `ℚ`, integer counters as `Nat`; the mutating
methods become state-passing functions.  The external SQuAD-v2 scoring
collaborator (`evaluate_v2.compute_exact` / `compute_f1`) is abstracted
as function parameters, exactly as the code delegates to it.

Part 2 embeds `get_best_span` of `src/models/bidaf_v2.py` (the span
selector); that file is absent from the sources, only its tests in
`src/tests/bidaf_v2_test.py` remain, so the definition is modelled from
the specification and reconciled with those tests.
-/

/-- Accumulator state of `SquadMetricsV2.__init__`: running sums of
exact-match and F1 scores and example counts, overall and split by the
no-answer / answerable partitions. -/
structure SquadMetricsV2 where
  total_em : ℚ
  total_f1 : ℚ
  count : Nat
  total_no_em : ℚ
  total_no_f1 : ℚ
  no_count : Nat
  total_yes_em : ℚ
  total_yes_f1 : ℚ
  yes_count : Nat
deriving Repr, DecidableEq

/-- The freshly constructed accumulator: every field starts at zero. -/
def SquadMetricsV2.init : SquadMetricsV2 :=
  ⟨0, 0, 0, 0, 0, 0, 0, 0, 0⟩

/-- The method `SquadMetricsV2.reset`: zeroes every counter. -/
def SquadMetricsV2.reset (_ : SquadMetricsV2) : SquadMetricsV2 :=
  ⟨0, 0, 0, 0, 0, 0, 0, 0, 0⟩

/-- The truthiness test `not answer_strings or not answer_strings[0]`
classifying an example as a no-answer example. -/
def noAnswerFlag (answer_strings : List String) : Bool :=
  match answer_strings with
  | [] => true
  | a :: _ => a == ""

/-- Python's `max` over a nonempty collection of scores (`0` on the
empty list, which the call site never produces). -/
def maxOver (f : String → ℚ) : List String → ℚ
  | [] => 0
  | a :: rest => rest.foldl (fun acc b => max acc (f b)) (f a)

/-- The method `SquadMetricsV2.__call__`: scores one example and updates the
counters.  `ce` and `cf` stand for the external collaborators
`evaluate_v2.compute_exact` and `evaluate_v2.compute_f1`, applied as in
the source with the gold answer first and the predicted string second. -/
def SquadMetricsV2.call (ce cf : String → String → ℚ) (m : SquadMetricsV2)
    (best_span_string : String) (answer_strings : List String) : SquadMetricsV2 :=
  let no_answer := noAnswerFlag answer_strings
  let golds := if no_answer then [""] else answer_strings
  let exact_match := maxOver (fun answer => ce answer best_span_string) golds
  let f1_score := maxOver (fun answer => cf answer best_span_string) golds
  let m1 : SquadMetricsV2 :=
    { m with
      total_em := m.total_em + exact_match
      total_f1 := m.total_f1 + f1_score
      count := m.count + 1 }
  if no_answer then
    { m1 with
      total_no_em := m1.total_no_em + exact_match
      total_no_f1 := m1.total_no_f1 + f1_score
      no_count := m1.no_count + 1 }
  else
    { m1 with
      total_yes_em := m1.total_yes_em + exact_match
      total_yes_f1 := m1.total_yes_f1 + f1_score
      yes_count := m1.yes_count + 1 }

/-- The inner helper `ave_score` of `get_metric`:
`value/count if count > 0 else 0`. -/
def ave_score (value : ℚ) (count : Nat) : ℚ :=
  if 0 < count then value / (count : ℚ) else 0

/-- The method `SquadMetricsV2.get_metric`: computes the six averages, builds the
returned dict (embedded as an association list in insertion order:
`em`, `f1`, `no_em`, `yes_em` — the source puts only these four keys in
`ret`, discarding the computed `total_no_f1` and `total_yes_f1`), and
resets the state when `reset` is set.  Returns the dict together with
the post-call state. -/
def SquadMetricsV2.get_metric (m : SquadMetricsV2) (reset : Bool) :
    List (String × ℚ) × SquadMetricsV2 :=
  let total_em := ave_score m.total_em m.count
  let total_f1 := ave_score m.total_f1 m.count
  let total_no_em := ave_score m.total_no_em m.no_count
  let _total_no_f1 := ave_score m.total_no_f1 m.no_count
  let total_yes_em := ave_score m.total_yes_em m.yes_count
  let _total_yes_f1 := ave_score m.total_yes_f1 m.yes_count
  let ret := [("em", total_em), ("f1", total_f1),
              ("no_em", total_no_em), ("yes_em", total_yes_em)]
  (ret, if reset then m.reset else m)

/-- States reachable from a fresh accumulator by any sequence of
`__call__`, `get_metric` and `reset` invocations, with arbitrary
external scoring collaborators. -/
inductive ReachableState : SquadMetricsV2 → Prop
  | init : ReachableState SquadMetricsV2.init
  | call (ce cf : String → String → ℚ) (p : String) (golds : List String)
      {m : SquadMetricsV2} : ReachableState m →
      ReachableState (m.call ce cf p golds)
  | metric (b : Bool) {m : SquadMetricsV2} : ReachableState m →
      ReachableState (m.get_metric b).2
  | reset {m : SquadMetricsV2} : ReachableState m → ReachableState m.reset

/-- Modelled from the spec: the score of the span candidate `(i, j)` —
`start_logp[start] + end_logp[end]` (§3, "Span candidate").
Log-probabilities are embedded as `ℚ`; the algorithm only ever adds and
compares them.  `getD`'s default is irrelevant: every use is guarded by
an index bound. -/
def spanScore (s e : List ℚ) (i j : Nat) : ℚ :=
  s.getD i 0 + e.getD j 0

/-- Modelled from the spec: the running state of the single-pass
dynamic program of `BidafV2.get_best_span` (§4.1) — the best start seen
so far (`bsIdx`, its log-probability `bsVal`) and the best span found
so far with its score. -/
structure SpanState where
  bsIdx : Nat
  bsVal : ℚ
  spanStart : Nat
  spanEnd : Nat
  best : ℚ
deriving Repr, DecidableEq

/-- Modelled from the spec: the state before the loop — best start
index `0`, best span `(0, 0)` with score `start_logp[0] + end_logp[0]`
(§4.1). -/
def initState (s e : List ℚ) : SpanState :=
  ⟨0, s.getD 0 0, 0, 0, s.getD 0 0 + e.getD 0 0⟩

/-- Modelled from the spec: refresh the tracked best start with
position `j`'s start log-probability on strict improvement.  The spec's
prose refreshes with position `j-1` before considering end `j`, but its
governing quadratic-form property (§4.1: the all-pairs maximization "is
the specification") and the repository's tests require span `(j, j)` to
be eligible at end `j`, so the refresh uses position `j` itself. -/
def updStart (s : List ℚ) (j : Nat) (st : SpanState) : SpanState :=
  if st.bsVal < s.getD j 0 then { st with bsIdx := j, bsVal := s.getD j 0 } else st

/-- Modelled from the spec: consider `j` as an end position — candidate
score is the tracked best start log-probability plus `end_logp[j]`, and
the best span is updated on strict improvement (§4.1). -/
def updEnd (s e : List ℚ) (j : Nat) (st : SpanState) : SpanState :=
  if st.best < st.bsVal + e.getD j 0 then
    { st with spanStart := st.bsIdx, spanEnd := j, best := st.bsVal + e.getD j 0 }
  else st

/-- Modelled from the spec: one loop iteration of the dynamic program
at end position `j`. -/
def stepEnd (s e : List ℚ) (j : Nat) (st : SpanState) : SpanState :=
  updEnd s e j (updStart s j st)

/-- Modelled from the spec: the dynamic program after processing end
positions `0, 1, ..., n` — initialization at end `0`, then one
`stepEnd` per subsequent end position (§4.1). -/
def runSpan (s e : List ℚ) : Nat → SpanState
  | 0 => initState s e
  | n + 1 => stepEnd s e (n + 1) (runSpan s e n)

/-- Modelled from the spec: the tracked no-answer score.  The spec
(§4.1) scores the no-answer case as a special span compared against the
best real span; the repository's tests (`BidafV2SquadV2Test.
test_get_best_span`) place that special channel at the last token
position, so its score is `start_logp[T-1] + end_logp[T-1]`. -/
def noAnswerScore (s e : List ℚ) : ℚ :=
  s.getD (s.length - 1) 0 + e.getD (s.length - 1) 0

/-- Modelled from the spec: `BidafV2.get_best_span` for one passage
(§4.1), absent from the sources (only `src/tests/bidaf_v2_test.py`
remains).  Fails with an input-shape error when the two sequences
differ in length or the passage is empty (§4.1 failure conditions,
§7).  Without no-answer mode it runs the dynamic program over all `T`
positions.  With no-answer mode the last position is the no-answer
channel: real spans range over the first `T - 1` positions and the
sentinel `(-1, -1)` is returned exactly when the no-answer score is
strictly greater than the best real-span score (ties favor the real
span); with no real position available the sentinel is returned. -/
def get_best_span (s e : List ℚ) (no_answer : Bool) : Except String (Int × Int) :=
  if s.length ≠ e.length then
    Except.error "span start and span end sequences have different lengths"
  else if s.length = 0 then
    Except.error "passage length is zero"
  else if no_answer then
    if s.length = 1 then Except.ok (-1, -1)
    else
      let st := runSpan s e (s.length - 2)
      if st.best < noAnswerScore s e then Except.ok (-1, -1)
      else Except.ok ((st.spanStart : Int), (st.spanEnd : Int))
  else
    let st := runSpan s e (s.length - 1)
    Except.ok ((st.spanStart : Int), (st.spanEnd : Int))

/-- Loop invariant for the best-start tracking of the dynamic program:
after processing start positions `0..n`, `bsIdx` is the least index of
a maximal start log-probability among them and `bsVal` its value. -/
structure InvBS (s : List ℚ) (n : Nat) (st : SpanState) : Prop where
  bs_le : st.bsIdx ≤ n
  bs_val : st.bsVal = s.getD st.bsIdx 0
  bs_max : ∀ i, i ≤ n → s.getD i 0 ≤ st.bsVal
  bs_least : ∀ i, i < st.bsIdx → s.getD i 0 < st.bsVal

/-- Loop invariant for the best-span tracking of the dynamic program:
after processing end positions `0..n`, the recorded span is the
lexicographically least maximizer of the span score among spans ending
at or before `n`. -/
structure InvBest (s e : List ℚ) (n : Nat) (st : SpanState) : Prop where
  sp_le : st.spanStart ≤ st.spanEnd
  sp_lt : st.spanEnd ≤ n
  best_eq : st.best = spanScore s e st.spanStart st.spanEnd
  best_max : ∀ i j, i ≤ j → j ≤ n → spanScore s e i j ≤ st.best
  best_lex : ∀ i j, i ≤ j → j ≤ n → spanScore s e i j = st.best →
    st.spanStart < i ∨ (st.spanStart = i ∧ st.spanEnd ≤ j)

/-- The full loop invariant of the dynamic program. -/
def SpanInv (s e : List ℚ) (n : Nat) (st : SpanState) : Prop :=
  InvBS s n st ∧ InvBest s e n st

theorem updStart_spanStart (s : List ℚ) (j : Nat) (st : SpanState) :
    (updStart s j st).spanStart = st.spanStart := by
  rw [updStart]; split <;> rfl

theorem updStart_spanEnd (s : List ℚ) (j : Nat) (st : SpanState) :
    (updStart s j st).spanEnd = st.spanEnd := by
  rw [updStart]; split <;> rfl

theorem updStart_best (s : List ℚ) (j : Nat) (st : SpanState) :
    (updStart s j st).best = st.best := by
  rw [updStart]; split <;> rfl

theorem updStart_invBS (s : List ℚ) (n : Nat) (st : SpanState) (h : InvBS s n st) :
    InvBS s (n + 1) (updStart s (n + 1) st) := by
  rw [updStart]
  by_cases hs : st.bsVal < s.getD (n + 1) 0
  · rw [if_pos hs]
    refine ⟨Nat.le_refl _, rfl, ?_, ?_⟩
    · intro i hi
      rcases Nat.le_succ_iff.mp hi with hi' | hi'
      · exact le_of_lt (lt_of_le_of_lt (h.bs_max i hi') hs)
      · subst hi'; exact le_refl _
    · intro i hi
      exact lt_of_le_of_lt (h.bs_max i (Nat.lt_succ_iff.mp hi)) hs
  · rw [if_neg hs]
    refine ⟨le_trans h.bs_le (Nat.le_succ n), h.bs_val, ?_, h.bs_least⟩
    intro i hi
    rcases Nat.le_succ_iff.mp hi with hi' | hi'
    · exact h.bs_max i hi'
    · subst hi'; exact not_lt.mp hs

theorem updStart_invBest (s e : List ℚ) (n j : Nat) (st : SpanState)
    (h : InvBest s e n st) : InvBest s e n (updStart s j st) := by
  refine ⟨?_, ?_, ?_, ?_, ?_⟩ <;>
    simp only [updStart_spanStart, updStart_spanEnd, updStart_best]
  · exact h.sp_le
  · exact h.sp_lt
  · exact h.best_eq
  · exact h.best_max
  · exact h.best_lex

theorem updEnd_inv (s e : List ℚ) (n : Nat) (st : SpanState)
    (hbs : InvBS s (n + 1) st) (hb : InvBest s e n st) :
    SpanInv s e (n + 1) (updEnd s e (n + 1) st) := by
  have hsp_n : st.spanStart ≤ n + 1 := le_trans (le_trans hb.sp_le hb.sp_lt) (Nat.le_succ n)
  rw [updEnd]
  by_cases hcand : st.best < st.bsVal + e.getD (n + 1) 0
  · rw [if_pos hcand]
    refine ⟨⟨hbs.bs_le, hbs.bs_val, hbs.bs_max, hbs.bs_least⟩,
      hbs.bs_le, Nat.le_refl _, ?_, ?_, ?_⟩
    · show st.bsVal + e.getD (n + 1) 0 = spanScore s e st.bsIdx (n + 1)
      rw [spanScore, hbs.bs_val]
    · intro i j hij hj
      rcases Nat.le_succ_iff.mp hj with hj' | hj'
      · exact le_of_lt (lt_of_le_of_lt (hb.best_max i j hij hj') hcand)
      · subst hj'
        show spanScore s e i (n + 1) ≤ st.bsVal + e.getD (n + 1) 0
        rw [spanScore]
        exact add_le_add_right (hbs.bs_max i hij) _
    · intro i j hij hj heq
      rcases Nat.le_succ_iff.mp hj with hj' | hj'
      · exact absurd heq (ne_of_lt (lt_of_le_of_lt (hb.best_max i j hij hj') hcand))
      · subst hj'
        rw [spanScore] at heq
        have hie : s.getD i 0 = st.bsVal := by
          have := add_right_cancel heq
          exact this
        rcases Nat.lt_or_ge i st.bsIdx with hlt | hge
        · exact absurd hie (ne_of_lt (hbs.bs_least i hlt))
        · rcases Nat.lt_or_ge st.bsIdx i with hlt | hge'
          · exact Or.inl hlt
          · exact Or.inr ⟨Nat.le_antisymm hge hge', Nat.le_refl _⟩
  · rw [if_neg hcand]
    have hcand' : st.bsVal + e.getD (n + 1) 0 ≤ st.best := not_lt.mp hcand
    refine ⟨⟨hbs.bs_le, hbs.bs_val, hbs.bs_max, hbs.bs_least⟩,
      hb.sp_le, le_trans hb.sp_lt (Nat.le_succ n), hb.best_eq, ?_, ?_⟩
    · intro i j hij hj
      rcases Nat.le_succ_iff.mp hj with hj' | hj'
      · exact hb.best_max i j hij hj'
      · subst hj'
        have h1 : s.getD i 0 ≤ st.bsVal := hbs.bs_max i hij
        show spanScore s e i (n + 1) ≤ st.best
        rw [spanScore]
        exact le_trans (add_le_add_right h1 _) hcand'
    · intro i j hij hj heq
      rcases Nat.le_succ_iff.mp hj with hj' | hj'
      · exact hb.best_lex i j hij hj' heq
      · subst hj'
        rw [spanScore] at heq
        have h1 : s.getD i 0 ≤ st.bsVal := hbs.bs_max i hij
        have hie : s.getD i 0 = st.bsVal := by
          rcases lt_or_eq_of_le h1 with hlt | hE
          · exfalso
            have : s.getD i 0 + e.getD (n + 1) 0 < st.best :=
              lt_of_lt_of_le (add_lt_add_right hlt _) hcand'
            exact absurd heq (ne_of_lt this)
          · exact hE
        have hstart_le : st.spanStart ≤ i := by
          by_contra hlt
          push_neg at hlt
          have hii : i ≤ st.spanEnd := le_trans (le_of_lt hlt) hb.sp_le
          have hsps : s.getD st.spanStart 0 ≤ st.bsVal :=
            hbs.bs_max _ hsp_n
          have hge : st.best ≤ spanScore s e i st.spanEnd := by
            rw [hb.best_eq, spanScore, spanScore]
            refine add_le_add_right ?_ _
            rw [hie]
            exact hsps
          have hle : spanScore s e i st.spanEnd ≤ st.best :=
            hb.best_max i st.spanEnd hii hb.sp_lt
          rcases hb.best_lex i st.spanEnd hii hb.sp_lt (le_antisymm hle hge) with h | h
          · omega
          · omega
        rcases lt_or_eq_of_le hstart_le with hlt | hE
        · exact Or.inl hlt
        · exact Or.inr ⟨hE, by have := hb.sp_lt; omega⟩

theorem inv_initState (s e : List ℚ) : SpanInv s e 0 (initState s e) := by
  refine ⟨⟨Nat.le_refl 0, rfl, ?_, ?_⟩, Nat.le_refl 0, Nat.le_refl 0, rfl, ?_, ?_⟩
  · intro i hi
    have hi0 : i = 0 := Nat.le_zero.mp hi
    subst hi0
    exact le_refl _
  · intro i hi
    exact absurd hi (Nat.not_lt_zero i)
  · intro i j hij hj
    have hj0 : j = 0 := Nat.le_zero.mp hj
    have hi0 : i = 0 := Nat.le_zero.mp (hj0 ▸ hij)
    subst hj0; subst hi0
    exact le_refl _
  · intro i j hij hj _
    have hj0 : j = 0 := Nat.le_zero.mp hj
    have hi0 : i = 0 := Nat.le_zero.mp (hj0 ▸ hij)
    subst hj0; subst hi0
    exact Or.inr ⟨rfl, Nat.le_refl 0⟩

theorem inv_runSpan (s e : List ℚ) (n : Nat) : SpanInv s e n (runSpan s e n) := by
  induction n with
  | zero => exact inv_initState s e
  | succ n ih =>
    simp only [runSpan, stepEnd]
    exact updEnd_inv s e n _ (updStart_invBS s n _ ih.1)
      (updStart_invBest s e n (n + 1) _ ih.2)

/-- C2: without no-answer mode, `get_best_span` returns exactly the
span `(i, j)` that maximizes `start_logp[i] + end_logp[j]` over all
pairs `i ≤ j < T`, and among spans attaining the maximal score it
returns the lexicographically smallest `(start, end)` pair — for every
pair of equal-length log-probability sequences of any length `T ≥ 1`. -/
theorem C2_best_span_is_argmax (s e : List ℚ) (hlen : s.length = e.length)
    (hT : 1 ≤ s.length) :
    ∃ a b : Nat, get_best_span s e false = Except.ok ((a : Int), (b : Int)) ∧
      a ≤ b ∧ b < s.length ∧
      (∀ i j, i ≤ j → j < s.length → spanScore s e i j ≤ spanScore s e a b) ∧
      (∀ i j, i ≤ j → j < s.length → spanScore s e i j = spanScore s e a b →
        a < i ∨ (a = i ∧ b ≤ j)) := by
  have hinv := inv_runSpan s e (s.length - 1)
  refine ⟨(runSpan s e (s.length - 1)).spanStart, (runSpan s e (s.length - 1)).spanEnd,
    ?_, hinv.2.sp_le, ?_, ?_, ?_⟩
  · rw [get_best_span, if_neg (by omega), if_neg (by omega), if_neg Bool.false_ne_true]
  · have := hinv.2.sp_lt
    omega
  · intro i j hij hj
    have h := hinv.2.best_max i j hij (by omega)
    rw [hinv.2.best_eq] at h
    exact h
  · intro i j hij hj heq
    rw [← hinv.2.best_eq] at heq
    exact hinv.2.best_lex i j hij (by omega) heq

/-- Witness for C2 at the concrete input `s = [4, 5, 1]`,
`e = [3, 6, 1]`. -/
theorem C2_best_span_is_argmax_witness :
    (([4, 5, 1] : List ℚ).length = ([3, 6, 1] : List ℚ).length ∧
      1 ≤ ([4, 5, 1] : List ℚ).length) ∧
    (∃ a b : Nat,
      get_best_span [4, 5, 1] [3, 6, 1] false = Except.ok ((a : Int), (b : Int)) ∧
      a ≤ b ∧ b < ([4, 5, 1] : List ℚ).length ∧
      (∀ i j, i ≤ j → j < ([4, 5, 1] : List ℚ).length →
        spanScore [4, 5, 1] [3, 6, 1] i j ≤ spanScore [4, 5, 1] [3, 6, 1] a b) ∧
      (∀ i j, i ≤ j → j < ([4, 5, 1] : List ℚ).length →
        spanScore [4, 5, 1] [3, 6, 1] i j = spanScore [4, 5, 1] [3, 6, 1] a b →
        a < i ∨ (a = i ∧ b ≤ j))) :=
  ⟨⟨rfl, by decide⟩, C2_best_span_is_argmax [4, 5, 1] [3, 6, 1] rfl (by decide)⟩

/-- C3: with no-answer mode enabled (and at least one real position
next to the no-answer channel), `get_best_span` returns the sentinel
`(-1, -1)` exactly when the tracked no-answer score strictly exceeds
the best real-span score `M`; on a tie or when a real span scores
higher, the best real span is returned. -/
theorem C3_no_answer_sentinel (s e : List ℚ) (hlen : s.length = e.length)
    (hT : 2 ≤ s.length) :
    ∃ M : ℚ,
      (∀ i j, i ≤ j → j + 1 < s.length → spanScore s e i j ≤ M) ∧
      (∃ i j, i ≤ j ∧ j + 1 < s.length ∧ spanScore s e i j = M) ∧
      (get_best_span s e true = Except.ok (-1, -1) ↔ M < noAnswerScore s e) ∧
      (noAnswerScore s e ≤ M →
        ∃ a b : Nat, get_best_span s e true = Except.ok ((a : Int), (b : Int)) ∧
          a ≤ b ∧ b + 1 < s.length ∧ spanScore s e a b = M) := by
  have hinv := inv_runSpan s e (s.length - 2)
  have hred : get_best_span s e true =
      (if (runSpan s e (s.length - 2)).best < noAnswerScore s e then
        Except.ok (-1, -1)
       else
        Except.ok (((runSpan s e (s.length - 2)).spanStart : Int),
          ((runSpan s e (s.length - 2)).spanEnd : Int))) := by
    rw [get_best_span, if_neg (by omega), if_neg (by omega), if_pos rfl,
      if_neg (by omega : ¬s.length = 1)]
  refine ⟨(runSpan s e (s.length - 2)).best, ?_, ?_, ?_, ?_⟩
  · intro i j hij hj
    exact hinv.2.best_max i j hij (by omega)
  · refine ⟨(runSpan s e (s.length - 2)).spanStart, (runSpan s e (s.length - 2)).spanEnd,
      hinv.2.sp_le, ?_, hinv.2.best_eq.symm⟩
    have := hinv.2.sp_lt
    omega
  · constructor
    · intro h
      by_contra hnot
      push_neg at hnot
      rw [hred, if_neg (not_lt.mpr hnot)] at h
      simp only [Except.ok.injEq, Prod.mk.injEq] at h
      omega
    · intro h
      rw [hred, if_pos h]
  · intro h
    rw [hred, if_neg (not_lt.mpr h)]
    refine ⟨(runSpan s e (s.length - 2)).spanStart, (runSpan s e (s.length - 2)).spanEnd,
      rfl, hinv.2.sp_le, ?_, hinv.2.best_eq.symm⟩
    have := hinv.2.sp_lt
    omega

/-- Witness for C3 at the concrete input `s = [1, 1, 8]`,
`e = [2, 1, 7]`. -/
theorem C3_no_answer_sentinel_witness :
    (([1, 1, 8] : List ℚ).length = ([2, 1, 7] : List ℚ).length ∧
      2 ≤ ([1, 1, 8] : List ℚ).length) ∧
    (∃ M : ℚ,
      (∀ i j, i ≤ j → j + 1 < ([1, 1, 8] : List ℚ).length →
        spanScore [1, 1, 8] [2, 1, 7] i j ≤ M) ∧
      (∃ i j, i ≤ j ∧ j + 1 < ([1, 1, 8] : List ℚ).length ∧
        spanScore [1, 1, 8] [2, 1, 7] i j = M) ∧
      (get_best_span [1, 1, 8] [2, 1, 7] true = Except.ok (-1, -1) ↔
        M < noAnswerScore [1, 1, 8] [2, 1, 7]) ∧
      (noAnswerScore [1, 1, 8] [2, 1, 7] ≤ M →
        ∃ a b : Nat,
          get_best_span [1, 1, 8] [2, 1, 7] true = Except.ok ((a : Int), (b : Int)) ∧
          a ≤ b ∧ b + 1 < ([1, 1, 8] : List ℚ).length ∧
          spanScore [1, 1, 8] [2, 1, 7] a b = M)) :=
  ⟨⟨rfl, by decide⟩, C3_no_answer_sentinel [1, 1, 8] [2, 1, 7] rfl (by decide)⟩

/-- C9: `get_best_span` fails with an input-shape error exactly when
the start and end log-probability sequences differ in length or the
passage length is zero; in every other case it returns a span, never
silently truncating. -/
theorem C9_shape_error (s e : List ℚ) (no_answer : Bool) :
    (∃ msg, get_best_span s e no_answer = Except.error msg) ↔
      s.length ≠ e.length ∨ s.length = 0 := by
  rw [get_best_span]
  by_cases h1 : s.length ≠ e.length
  · rw [if_pos h1]
    exact ⟨fun _ => Or.inl h1, fun _ => ⟨_, rfl⟩⟩
  · rw [if_neg h1]
    by_cases h2 : s.length = 0
    · rw [if_pos h2]
      exact ⟨fun _ => Or.inr h2, fun _ => ⟨_, rfl⟩⟩
    · rw [if_neg h2]
      constructor
      · rintro ⟨msg, hmsg⟩
        exfalso
        cases no_answer with
        | false =>
          rw [if_neg Bool.false_ne_true] at hmsg
          exact Except.noConfusion hmsg
        | true =>
          rw [if_pos rfl] at hmsg
          by_cases h3 : s.length = 1
          · rw [if_pos h3] at hmsg
            exact Except.noConfusion hmsg
          · rw [if_neg h3] at hmsg
            dsimp only at hmsg
            split at hmsg
            · exact Except.noConfusion hmsg
            · exact Except.noConfusion hmsg
      · intro h
        rcases h with h | h
        · exact absurd h h1
        · exact absurd h h2

/-- C1: the claim says `get_metric` returns a mapping with six
averages — overall EM and F1, no-answer EM and F1, answerable EM and
F1.  At the accumulator state below the no-answer average F1 is `1/2`,
yet the returned mapping holds only the four keys `em`, `f1`, `no_em`,
`yes_em` and no entry carries the value `1/2`: the code computes the
no-answer and answerable F1 averages and then drops them from the
returned dict. -/
theorem C1_get_metric_omits_f1_partitions :
    (SquadMetricsV2.get_metric ⟨0, 3/2, 2, 0, 1/2, 1, 0, 1, 1⟩ false).1 =
      [("em", 0), ("f1", 3/4), ("no_em", 0), ("yes_em", 0)] ∧
    ave_score (1/2 : ℚ) 1 = 1/2 ∧
    (1/2 : ℚ) ∉ ((SquadMetricsV2.get_metric ⟨0, 3/2, 2, 0, 1/2, 1, 0, 1, 1⟩
      false).1.map Prod.snd) := by
  have h : (SquadMetricsV2.get_metric ⟨0, 3/2, 2, 0, 1/2, 1, 0, 1, 1⟩ false).1 =
      [("em", 0), ("f1", 3/4), ("no_em", 0), ("yes_em", 0)] := by
    simp only [SquadMetricsV2.get_metric, ave_score]
    norm_num
  refine ⟨h, by norm_num [ave_score], ?_⟩
  rw [h]
  simp only [List.map_cons, List.map_nil, List.mem_cons, List.not_mem_nil]
  norm_num

/-- C4: each `__call__` scores the example as the maximum of the
external exact-match and F1 scorers over the (possibly substituted)
gold answers, bumps the total count by one, adds the scores to the
total sums, and applies the identical increments to exactly one of the
no-answer or answerable partition triples, as classified. -/
theorem C4_call_updates (ce cf : String → String → ℚ) (m : SquadMetricsV2)
    (p : String) (golds : List String) :
    let g := if noAnswerFlag golds then [""] else golds
    let em := maxOver (fun answer => ce answer p) g
    let f1 := maxOver (fun answer => cf answer p) g
    let m2 := m.call ce cf p golds
    m2.count = m.count + 1 ∧
    m2.total_em = m.total_em + em ∧
    m2.total_f1 = m.total_f1 + f1 ∧
    (if noAnswerFlag golds then
      m2.no_count = m.no_count + 1 ∧
      m2.total_no_em = m.total_no_em + em ∧
      m2.total_no_f1 = m.total_no_f1 + f1 ∧
      m2.yes_count = m.yes_count ∧
      m2.total_yes_em = m.total_yes_em ∧
      m2.total_yes_f1 = m.total_yes_f1
    else
      m2.yes_count = m.yes_count + 1 ∧
      m2.total_yes_em = m.total_yes_em + em ∧
      m2.total_yes_f1 = m.total_yes_f1 + f1 ∧
      m2.no_count = m.no_count ∧
      m2.total_no_em = m.total_no_em ∧
      m2.total_no_f1 = m.total_no_f1) := by
  by_cases h : noAnswerFlag golds = true
  · simp [SquadMetricsV2.call, h]
  · simp [SquadMetricsV2.call, h]

/-- C5: an example is classified as no-answer exactly when the gold
list is empty or begins with the empty string; in that case the scores
are computed against the empty string as the sole gold answer (and the
no-answer partition count is bumped); otherwise the answerable
partition is bumped. -/
theorem C5_no_answer_classification (ce cf : String → String → ℚ)
    (m : SquadMetricsV2) (p : String) (golds : List String) :
    (noAnswerFlag golds = true ↔ golds = [] ∨ golds.head? = some "") ∧
    (noAnswerFlag golds = true →
      (m.call ce cf p golds).total_em = m.total_em + ce "" p ∧
      (m.call ce cf p golds).total_f1 = m.total_f1 + cf "" p ∧
      (m.call ce cf p golds).no_count = m.no_count + 1 ∧
      (m.call ce cf p golds).yes_count = m.yes_count) ∧
    (noAnswerFlag golds = false →
      (m.call ce cf p golds).yes_count = m.yes_count + 1 ∧
      (m.call ce cf p golds).no_count = m.no_count) := by
  refine ⟨?_, ?_, ?_⟩
  · cases golds <;> simp [noAnswerFlag]
  · intro h
    simp [SquadMetricsV2.call, h, maxOver]
  · intro h
    simp [SquadMetricsV2.call, h]

/-- C6: `get_metric` is a total function of the state — each reported
average equals `sum/count` when the corresponding count is positive and
`0` when it is zero, so an empty partition reports `0` rather than a
division-by-zero error. -/
theorem C6_average_never_divides_by_zero (m : SquadMetricsV2) (reset : Bool) :
    (m.get_metric reset).1 =
      [("em", if 0 < m.count then m.total_em / (m.count : ℚ) else 0),
       ("f1", if 0 < m.count then m.total_f1 / (m.count : ℚ) else 0),
       ("no_em", if 0 < m.no_count then m.total_no_em / (m.no_count : ℚ) else 0),
       ("yes_em", if 0 < m.yes_count then m.total_yes_em / (m.yes_count : ℚ) else 0)] :=
  rfl

/-- C7: a `get_metric` call with `reset` set reports the averages of
the pre-reset counters, leaves every counter at zero, and any
subsequent snapshot reports all-zero values until a new record call
occurs. -/
theorem C7_reset_reads_then_clears (m : SquadMetricsV2) :
    (m.get_metric true).1 = (m.get_metric false).1 ∧
    (m.get_metric true).2 = SquadMetricsV2.init ∧
    (∀ b : Bool, (((m.get_metric true).2).get_metric b).1 =
      [("em", 0), ("f1", 0), ("no_em", 0), ("yes_em", 0)]) :=
  ⟨rfl, rfl, fun _ => rfl⟩

/-- C8: a `get_metric` call without `reset` leaves the accumulator
unchanged, so two consecutive snapshots with no intervening record
return identical mappings. -/
theorem C8_snapshot_idempotent (m : SquadMetricsV2) :
    (m.get_metric false).2 = m ∧
    (((m.get_metric false).2).get_metric false).1 = (m.get_metric false).1 :=
  ⟨rfl, rfl⟩

/-- C10: in every state reachable from a fresh accumulator by
`__call__` / `get_metric` / `reset` calls, the partition counters sum
to the totals. -/
theorem C10_partition_counters_sum (m : SquadMetricsV2) (h : ReachableState m) :
    m.count = m.no_count + m.yes_count ∧
    m.total_em = m.total_no_em + m.total_yes_em ∧
    m.total_f1 = m.total_no_f1 + m.total_yes_f1 := by
  induction h with
  | init =>
    refine ⟨rfl, ?_, ?_⟩ <;> norm_num [SquadMetricsV2.init]
  | call ce cf p golds hm ih =>
    obtain ⟨h1, h2, h3⟩ := ih
    cases hflag : noAnswerFlag golds
    · simp only [SquadMetricsV2.call, hflag]
      rw [if_neg Bool.false_ne_true]
      dsimp only
      exact ⟨by omega, by linarith, by linarith⟩
    · simp only [SquadMetricsV2.call, hflag]
      simp only [if_true]
      exact ⟨by omega, by linarith, by linarith⟩
  | metric b hm ih =>
    cases b
    · simpa [SquadMetricsV2.get_metric] using ih
    · simp [SquadMetricsV2.get_metric, SquadMetricsV2.reset]
  | reset hm ih =>
    simp [SquadMetricsV2.reset]

/-- Witness for C10 at a concrete reachable state: one answerable
example recorded into a fresh accumulator. -/
theorem C10_partition_counters_sum_witness :
    ReachableState (SquadMetricsV2.init.call
      (fun _ _ => 1) (fun _ _ => 1) "a" ["a"]) ∧
    ((SquadMetricsV2.init.call (fun _ _ => 1) (fun _ _ => 1) "a" ["a"]).count =
      (SquadMetricsV2.init.call (fun _ _ => 1) (fun _ _ => 1) "a" ["a"]).no_count +
      (SquadMetricsV2.init.call (fun _ _ => 1) (fun _ _ => 1) "a" ["a"]).yes_count ∧
     (SquadMetricsV2.init.call (fun _ _ => 1) (fun _ _ => 1) "a" ["a"]).total_em =
      (SquadMetricsV2.init.call (fun _ _ => 1) (fun _ _ => 1) "a" ["a"]).total_no_em +
      (SquadMetricsV2.init.call (fun _ _ => 1) (fun _ _ => 1) "a" ["a"]).total_yes_em ∧
     (SquadMetricsV2.init.call (fun _ _ => 1) (fun _ _ => 1) "a" ["a"]).total_f1 =
      (SquadMetricsV2.init.call (fun _ _ => 1) (fun _ _ => 1) "a" ["a"]).total_no_f1 +
      (SquadMetricsV2.init.call (fun _ _ => 1) (fun _ _ => 1) "a" ["a"]).total_yes_f1) :=
  ⟨ReachableState.call _ _ _ _ ReachableState.init,
    C10_partition_counters_sum _ (ReachableState.call _ _ _ _ ReachableState.init)⟩
